import Mathlib

/-!
Formal model of the llm-lab client code.

This development shallowly embeds the TypeScript sources of the repository:

* `src/services/securityService.ts` — API-key format validation, input
  sanitization, checksummed local-storage wrappers, and rate limiting;
* `src/services/apiService.ts` — the `callModel` provider dispatch;
* `src/utils/benchmarkEngine.ts` — quality assessment, the benchmark
  orchestration loop, and model recommendations.

Modelling conventions: JS numbers are `ℚ` (all arithmetic the claims touch
is exact), machine 32-bit integer steps (`<< 5`, `& hash`) are `ℤ` with
explicit wrapping, JS strings are Lean `String` (a list of characters), and
JS runtime values (for `typeof` checks, truthiness and JSON data) are the
inductive `JSValue`.  External effects (SDK calls, `Date.now()`,
`localStorage`) are explicit parameters or state.
-/

/-- JS runtime values, as produced by `JSON.parse` and passed to the
services.  `num` carries a rational, the exact model of the float values
the claims mention. -/
inductive JSValue where
  | null
  | bool (b : Bool)
  | num (q : ℚ)
  | str (s : String)
  | arr (elems : List JSValue)
  | obj (fields : List (String × JSValue))

/-- JS truthiness of a value (`!x` in the sources is `!(jsTruthy x)`).
`NaN` does not arise in the modelled code paths. -/
def jsTruthy : JSValue → Bool
  | .null => false
  | .bool b => b
  | .num q => decide (q ≠ 0)
  | .str s => decide (s ≠ "")
  | .arr _ => true
  | .obj _ => true

/-- Truthiness of a possibly-undefined value (property access on a missing
field yields `undefined`, which is falsy). -/
def jsTruthyOpt : Option JSValue → Bool
  | none => false
  | some v => jsTruthy v

/-- Truthiness of an optional string field such as `error?: string`:
absent (`undefined`) and the empty string are both falsy. -/
def jsStrTruthy : Option String → Bool
  | none => false
  | some s => decide (s ≠ "")

/-- JS `String.prototype.replace` with a *string* pattern replaces only the
first occurrence.  All patterns used in the sources are non-empty. -/
def replFirst (pat repl : List Char) : List Char → List Char
  | [] => []
  | c :: cs =>
    if pat.isPrefixOf (c :: cs) then repl ++ (c :: cs).drop pat.length
    else c :: replFirst pat repl cs

/-- JS `String.prototype.replace` with a global single-character regex
(`/x/g`) replaces every occurrence. -/
def replAllC (c : Char) (repl : List Char) : List Char → List Char
  | [] => []
  | x :: xs => if x = c then repl ++ replAllC c repl xs else x :: replAllC c repl xs

/-- JS `String.prototype.trim` (the whitespace characters relevant to the
sources: space, tab, CR, LF). -/
def jsTrimL (l : List Char) : List Char :=
  ((l.dropWhile Char.isWhitespace).reverse.dropWhile Char.isWhitespace).reverse

/-- String form of `jsTrimL`. -/
def jsTrim (s : String) : String := String.mk (jsTrimL s.toList)

/-- The ASCII class `[a-zA-Z0-9]` of the API-key regexes. -/
def isAlnumA (c : Char) : Bool := c.isAlpha || c.isDigit

/-- The ASCII class `[a-zA-Z0-9\-_]` of the API-key regexes. -/
def isKeyA (c : Char) : Bool := isAlnumA c || c == '-' || c == '_'

/-- `API_KEY_PATTERNS.openai`: membership in `/^sk-[a-zA-Z0-9]{20,}$/`. -/
def matchOpenai (s : String) : Bool :=
  let cs := s.toList
  "sk-".toList.isPrefixOf cs && (cs.drop 3).all isAlnumA && decide (20 ≤ (cs.drop 3).length)

/-- `API_KEY_PATTERNS.anthropic`: `/^sk-ant-[a-zA-Z0-9\-_]{95,}$/`. -/
def matchAnthropic (s : String) : Bool :=
  let cs := s.toList
  "sk-ant-".toList.isPrefixOf cs && (cs.drop 7).all isKeyA && decide (95 ≤ (cs.drop 7).length)

/-- `API_KEY_PATTERNS.google`: `/^[a-zA-Z0-9\-_]{35,45}$/`. -/
def matchGoogle (s : String) : Bool :=
  let cs := s.toList
  cs.all isKeyA && decide (35 ≤ cs.length) && decide (cs.length ≤ 45)

/-- `API_KEY_PATTERNS.huggingface`: `/^hf_[a-zA-Z0-9]{34}$/`. -/
def matchHuggingface (s : String) : Bool :=
  let cs := s.toList
  "hf_".toList.isPrefixOf cs && (cs.drop 3).all isAlnumA && decide ((cs.drop 3).length = 34)

/-- `API_KEY_PATTERNS.mistral`: `/^[a-zA-Z0-9]{32}$/`. -/
def matchMistral (s : String) : Bool :=
  let cs := s.toList
  cs.all isAlnumA && decide (cs.length = 32)

/-- The pattern table keyed by normalized provider name; `none` models a
missing entry of `API_KEY_PATTERNS`. -/
def patternFor : String → Option (String → Bool)
  | "openai" => some matchOpenai
  | "anthropic" => some matchAnthropic
  | "google" => some matchGoogle
  | "huggingface" => some matchHuggingface
  | "mistral" => some matchMistral
  | _ => none

/-- JS `String.prototype.toLowerCase` (character-wise lowering). -/
def jsToLower (s : String) : List Char := s.toList.map Char.toLower

/-- `provider.toLowerCase().replace(' ', '').replace('ai', '').replace('meta', 'huggingface')`
from `validateApiKey` (each `replace` rewrites only the first occurrence). -/
def providerKeyOf (provider : String) : String :=
  let l1 := replFirst [' '] [] (jsToLower provider)
  let l2 := replFirst ['a', 'i'] [] l1
  let l3 := replFirst "meta".toList "huggingface".toList l2
  String.mk l3

/-- Result record of the validation functions of `securityService`. -/
structure SecurityValidation where
  isValid : Bool
  error : Option String := none
  warning : Option String := none
deriving DecidableEq, Repr

/-- `securityService.validateApiKey`. -/
def validateApiKey (provider key : String) : SecurityValidation :=
  if (jsTrim key).length = 0 then
    { isValid := false, error := some "API key cannot be empty" }
  else
    let trimmedKey := jsTrim key
    match patternFor (providerKeyOf provider) with
    | none => { isValid := true, warning := some "Unknown provider - cannot validate key format" }
    | some pat =>
      if pat trimmedKey then { isValid := true }
      else
        { isValid := false
          error := some ("Invalid " ++ provider ++ " API key format. Please check your key.") }

/-- The five characters rewritten by `sanitizeInput`. -/
def specialChar (c : Char) : Bool :=
  c == '<' || c == '>' || c == Char.ofNat 34 || c == Char.ofNat 39 || c == '/'

/-- The five global replaces of `securityService.sanitizeInput` followed by
`trim`, on an actual string. -/
def sanitizeCore (s : String) : String :=
  let l1 := replAllC '<' "&lt;".toList s.toList
  let l2 := replAllC '>' "&gt;".toList l1
  let l3 := replAllC (Char.ofNat 34) "&quot;".toList l2
  let l4 := replAllC (Char.ofNat 39) "&#x27;".toList l3
  let l5 := replAllC '/' "&#x2F;".toList l4
  String.mk (jsTrimL l5)

/-- `securityService.sanitizeInput`, including its `typeof input !== 'string'`
guard, which returns the empty string for any non-string value. -/
def sanitizeInput : JSValue → String
  | .str s => sanitizeCore s
  | _ => ""

theorem mem_replAllC {a c : Char} {repl l : List Char}
    (h : a ∈ replAllC c repl l) : a ∈ repl ∨ a ∈ l := by
  induction l with
  | nil => simp [replAllC] at h
  | cons x xs ih =>
    by_cases hx : x = c
    · simp only [replAllC, if_pos hx, List.mem_append] at h
      rcases h with h | h
      · exact Or.inl h
      · rcases ih h with h' | h'
        · exact Or.inl h'
        · exact Or.inr (List.mem_cons_of_mem _ h')
    · simp only [replAllC, if_neg hx, List.mem_cons] at h
      rcases h with h | h
      · exact Or.inr (h ▸ List.mem_cons_self _ _)
      · rcases ih h with h' | h'
        · exact Or.inl h'
        · exact Or.inr (List.mem_cons_of_mem _ h')

theorem not_mem_replAllC_self {c : Char} {repl : List Char} (hc : c ∉ repl)
    (l : List Char) : c ∉ replAllC c repl l := by
  induction l with
  | nil => simp [replAllC]
  | cons x xs ih =>
    by_cases hx : x = c
    · simp only [replAllC, if_pos hx, List.mem_append]
      intro h
      rcases h with h | h
      · exact hc h
      · exact ih h
    · simp only [replAllC, if_neg hx, List.mem_cons]
      intro h
      rcases h with h | h
      · exact hx (h ▸ rfl)
      · exact ih h

theorem not_mem_replAllC_of_not_mem {a c : Char} {repl l : List Char}
    (hl : a ∉ l) (hr : a ∉ repl) : a ∉ replAllC c repl l := by
  intro h
  rcases mem_replAllC h with h' | h'
  · exact hr h'
  · exact hl h'

theorem replAllC_eq_self {c : Char} {l : List Char} (repl : List Char)
    (h : c ∉ l) : replAllC c repl l = l := by
  induction l with
  | nil => rfl
  | cons x xs ih =>
    simp only [List.mem_cons, not_or] at h
    rw [replAllC, if_neg (fun hx => h.1 hx.symm), ih h.2]

theorem mem_jsTrimL {a : Char} {l : List Char} (h : a ∈ jsTrimL l) : a ∈ l := by
  unfold jsTrimL at h
  rw [List.mem_reverse] at h
  have h1 := (List.dropWhile_sublist Char.isWhitespace).subset h
  rw [List.mem_reverse] at h1
  exact (List.dropWhile_sublist Char.isWhitespace).subset h1

theorem head?_dropWhile_all (p : Char → Bool) (l : List Char) :
    (l.dropWhile p).head?.all (fun a => !p a) = true := by
  induction l with
  | nil => rfl
  | cons x xs ih =>
    by_cases hx : p x
    · simpa [List.dropWhile_cons, hx] using ih
    · simp [List.dropWhile_cons, hx]

theorem dropWhile_eq_self_of_head (p : Char → Bool) (l : List Char)
    (h : l.head?.all (fun a => !p a) = true) : l.dropWhile p = l := by
  cases l with
  | nil => rfl
  | cons x xs =>
    simp only [List.head?_cons, Option.all_some, Bool.not_eq_true'] at h
    simp [List.dropWhile_cons, h]

theorem getLast?_dropWhile_or (p : Char → Bool) (l : List Char) :
    l.dropWhile p = [] ∨ (l.dropWhile p).getLast? = l.getLast? := by
  induction l with
  | nil => exact Or.inl rfl
  | cons x xs ih =>
    by_cases hx : p x
    · rw [List.dropWhile_cons, if_pos hx]
      rcases ih with h | h
      · exact Or.inl h
      · cases xs with
        | nil => exact Or.inl rfl
        | cons y ys => exact Or.inr (by rw [h, List.getLast?_cons_cons])
    · exact Or.inr (by rw [List.dropWhile_cons, if_neg hx])

theorem getLast?_jsTrimL_all (l : List Char) :
    (jsTrimL l).getLast?.all (fun a => !a.isWhitespace) = true := by
  unfold jsTrimL
  rw [List.getLast?_reverse]
  exact head?_dropWhile_all _ _

theorem head?_jsTrimL_all (l : List Char) :
    (jsTrimL l).head?.all (fun a => !a.isWhitespace) = true := by
  unfold jsTrimL
  rw [List.head?_reverse]
  rcases getLast?_dropWhile_or Char.isWhitespace
      (l.dropWhile Char.isWhitespace).reverse with h | h
  · rw [h]; rfl
  · rw [h, List.getLast?_reverse]
    exact head?_dropWhile_all _ _

theorem jsTrimL_idem (l : List Char) : jsTrimL (jsTrimL l) = jsTrimL l := by
  conv_lhs => rw [jsTrimL]
  rw [dropWhile_eq_self_of_head _ _ (head?_jsTrimL_all l)]
  have hlast : ((jsTrimL l).reverse.dropWhile Char.isWhitespace) = (jsTrimL l).reverse := by
    apply dropWhile_eq_self_of_head
    rw [List.head?_reverse]
    exact getLast?_jsTrimL_all l
  rw [hlast, List.reverse_reverse]

/-- Membership after a global single-character replace: an element comes
from the replacement, or survives and is distinct from the replaced one. -/
theorem mem_replAllC_strong {a c : Char} {repl l : List Char}
    (h : a ∈ replAllC c repl l) : a ∈ repl ∨ (a ∈ l ∧ a ≠ c) := by
  induction l with
  | nil => simp [replAllC] at h
  | cons x xs ih =>
    by_cases hx : x = c
    · simp only [replAllC, if_pos hx, List.mem_append] at h
      rcases h with h | h
      · exact Or.inl h
      · rcases ih h with h' | ⟨h1, h2⟩
        · exact Or.inl h'
        · exact Or.inr ⟨List.mem_cons_of_mem _ h1, h2⟩
    · simp only [replAllC, if_neg hx, List.mem_cons] at h
      rcases h with h | h
      · exact Or.inr ⟨h ▸ List.mem_cons_self _ _, h ▸ hx⟩
      · rcases ih h with h' | ⟨h1, h2⟩
        · exact Or.inl h'
        · exact Or.inr ⟨List.mem_cons_of_mem _ h1, h2⟩

theorem sanitizeCore_toList (s : String) :
    (sanitizeCore s).toList = jsTrimL (replAllC '/' "&#x2F;".toList
      (replAllC (Char.ofNat 39) "&#x27;".toList (replAllC (Char.ofNat 34) "&quot;".toList
      (replAllC '>' "&gt;".toList (replAllC '<' "&lt;".toList s.toList))))) := rfl

theorem sanitizeCore_no_special (s : String) :
    (sanitizeCore s).toList.all (fun c => !specialChar c) = true := by
  rw [List.all_eq_true]
  intro a ha
  rw [sanitizeCore_toList] at ha
  rcases mem_replAllC_strong (mem_jsTrimL ha) with h | ⟨h4, ne5⟩
  · exact (show ∀ x ∈ "&#x2F;".toList, (!specialChar x) = true by decide) a h
  rcases mem_replAllC_strong h4 with h | ⟨h3, ne4⟩
  · exact (show ∀ x ∈ "&#x27;".toList, (!specialChar x) = true by decide) a h
  rcases mem_replAllC_strong h3 with h | ⟨h2, ne3⟩
  · exact (show ∀ x ∈ "&quot;".toList, (!specialChar x) = true by decide) a h
  rcases mem_replAllC_strong h2 with h | ⟨h1, ne2⟩
  · exact (show ∀ x ∈ "&gt;".toList, (!specialChar x) = true by decide) a h
  rcases mem_replAllC_strong h1 with h | ⟨h0, ne1⟩
  · exact (show ∀ x ∈ "&lt;".toList, (!specialChar x) = true by decide) a h
  simp only [Bool.not_eq_true', specialChar, Bool.or_eq_false_iff, beq_eq_false_iff_ne, ne_eq]
  exact ⟨⟨⟨⟨ne1, ne2⟩, ne3⟩, ne4⟩, ne5⟩

theorem mkString_toList (s : String) : String.mk s.toList = s := rfl

theorem sanitizeCore_not_mem (s : String) {c : Char} (hc : specialChar c = true) :
    c ∉ (sanitizeCore s).toList := by
  intro h
  have := List.all_eq_true.1 (sanitizeCore_no_special s) c h
  rw [hc] at this
  exact Bool.noConfusion this

theorem sanitizeCore_idem (s : String) : sanitizeCore (sanitizeCore s) = sanitizeCore s := by
  have e1 : replAllC '<' "&lt;".toList (sanitizeCore s).toList = (sanitizeCore s).toList :=
    replAllC_eq_self _ (sanitizeCore_not_mem s (by decide))
  have e2 : replAllC '>' "&gt;".toList (sanitizeCore s).toList = (sanitizeCore s).toList :=
    replAllC_eq_self _ (sanitizeCore_not_mem s (by decide))
  have e3 : replAllC (Char.ofNat 34) "&quot;".toList (sanitizeCore s).toList
      = (sanitizeCore s).toList :=
    replAllC_eq_self _ (sanitizeCore_not_mem s (by decide))
  have e4 : replAllC (Char.ofNat 39) "&#x27;".toList (sanitizeCore s).toList
      = (sanitizeCore s).toList :=
    replAllC_eq_self _ (sanitizeCore_not_mem s (by decide))
  have e5 : replAllC '/' "&#x2F;".toList (sanitizeCore s).toList = (sanitizeCore s).toList :=
    replAllC_eq_self _ (sanitizeCore_not_mem s (by decide))
  calc sanitizeCore (sanitizeCore s)
      = String.mk (jsTrimL (replAllC '/' "&#x2F;".toList
          (replAllC (Char.ofNat 39) "&#x27;".toList (replAllC (Char.ofNat 34) "&quot;".toList
          (replAllC '>' "&gt;".toList (replAllC '<' "&lt;".toList
            (sanitizeCore s).toList)))))) := rfl
    _ = String.mk (jsTrimL ((sanitizeCore s).toList)) := by rw [e1, e2, e3, e4, e5]
    _ = String.mk (jsTrimL (jsTrimL (replAllC '/' "&#x2F;".toList
          (replAllC (Char.ofNat 39) "&#x27;".toList (replAllC (Char.ofNat 34) "&quot;".toList
          (replAllC '>' "&gt;".toList (replAllC '<' "&lt;".toList s.toList))))))) := by
            rw [sanitizeCore_toList]
    _ = String.mk (jsTrimL (replAllC '/' "&#x2F;".toList
          (replAllC (Char.ofNat 39) "&#x27;".toList (replAllC (Char.ofNat 34) "&quot;".toList
          (replAllC '>' "&gt;".toList (replAllC '<' "&lt;".toList s.toList)))))) := by
            rw [jsTrimL_idem]
    _ = sanitizeCore s := rfl

/-- C7: `sanitizeInput` postcondition — on any string the result contains
none of the characters `<`, `>`, `"`, `'`, `/`, has no leading or trailing
whitespace, and the function is idempotent; any non-string argument yields
the empty string. -/
theorem sanitizeInput_postcondition :
    (∀ s : String, (sanitizeInput (.str s)).toList.all (fun c => !specialChar c) = true) ∧
    (∀ s : String, (sanitizeInput (.str s)).toList.head?.all (fun c => !c.isWhitespace) = true
      ∧ (sanitizeInput (.str s)).toList.getLast?.all (fun c => !c.isWhitespace) = true) ∧
    (∀ s : String, sanitizeInput (.str (sanitizeInput (.str s))) = sanitizeInput (.str s)) ∧
    (sanitizeInput .null = "" ∧ (∀ b, sanitizeInput (.bool b) = "")
      ∧ (∀ q, sanitizeInput (.num q) = "") ∧ (∀ vs, sanitizeInput (.arr vs) = "")
      ∧ (∀ fs, sanitizeInput (.obj fs) = "")) := by
  refine ⟨fun s => sanitizeCore_no_special s, fun s => ⟨?_, ?_⟩,
    fun s => sanitizeCore_idem s, rfl, fun _ => rfl, fun _ => rfl, fun _ => rfl, fun _ => rfl⟩
  · rw [show sanitizeInput (.str s) = sanitizeCore s from rfl, sanitizeCore_toList]
    exact head?_jsTrimL_all _
  · rw [show sanitizeInput (.str s) = sanitizeCore s from rfl, sanitizeCore_toList]
    exact getLast?_jsTrimL_all _

/-- C2 (code-bug evidence): the provider-key normalization maps `'openai'`
to `'open'` (the first `'ai'` of `'openai'` is removed), so no entry of
`API_KEY_PATTERNS` is found and `validateApiKey` accepts *any* non-empty
key for provider `'openai'` with an unknown-provider warning — while the
repository's own test expects `isValid = false` with an
`Invalid openai API key format` error for the key `'invalid-key'`. -/
theorem validateApiKey_openai_accepts_invalid :
    validateApiKey "openai" "invalid-key"
      = { isValid := true, error := none
          warning := some "Unknown provider - cannot validate key format" }
      ∧ providerKeyOf "openai" = "open" := by
  constructor <;> rfl

/-- Wrap an integer to JS 32-bit signed semantics (the effect of `| 0`,
`& hash` and `<<` coercions). -/
def toInt32 (n : ℤ) : ℤ := (n + 2 ^ 31) % 2 ^ 32 - 2 ^ 31

/-- One iteration of the `generateChecksum` loop:
`hash = ((hash << 5) - hash) + char; hash = hash & hash`.  `charCodeAt` is
modelled by the character's code point (the key material is ASCII). -/
def checksumStep (hash : ℤ) (c : Char) : ℤ :=
  toInt32 (toInt32 (hash * 32) - hash + c.toNat)

/-- Digit characters of `Number.prototype.toString(36)`: 0-9 then a-z. -/
def base36digit (n : Nat) : Char :=
  if n < 10 then Char.ofNat (48 + n) else Char.ofNat (87 + n)

/-- Base-36 digit expansion (fuel-indexed; `fuel = n` suffices). -/
def natToBase36Aux (fuel : Nat) (n : Nat) (acc : List Char) : List Char :=
  match fuel with
  | 0 => acc
  | fuel + 1 => if n = 0 then acc else natToBase36Aux fuel (n / 36) (base36digit (n % 36) :: acc)

/-- `n.toString(36)` for a natural number. -/
def natToBase36 (n : Nat) : List Char :=
  if n = 0 then ['0'] else natToBase36Aux n n []

/-- `hash.toString(36)`: a leading `-` for negative values. -/
def intToBase36 (i : ℤ) : String :=
  if i < 0 then String.mk ('-' :: natToBase36 i.natAbs) else String.mk (natToBase36 i.natAbs)

/-- `securityService.generateChecksum`. -/
def generateChecksum (data : String) : String :=
  intToBase36 (data.toList.foldl checksumStep 0)

theorem natToBase36Aux_length (fuel n : Nat) (acc : List Char) :
    acc.length ≤ (natToBase36Aux fuel n acc).length := by
  induction fuel generalizing n acc with
  | zero => exact le_refl _
  | succ fuel ih =>
    rw [natToBase36Aux]
    by_cases h : n = 0
    · rw [if_pos h]
    · rw [if_neg h]
      exact le_trans (Nat.le_succ _) (ih (n / 36) (base36digit (n % 36) :: acc))

theorem natToBase36_ne_nil (n : Nat) : natToBase36 n ≠ [] := by
  unfold natToBase36
  by_cases h : n = 0
  · rw [if_pos h]; exact fun hc => List.noConfusion hc
  · rw [if_neg h]
    intro hc
    cases n with
    | zero => exact h rfl
    | succ m =>
      have h1 : 1 ≤ (natToBase36Aux (m + 1) (m + 1) []).length := by
        rw [natToBase36Aux, if_neg h]
        exact le_trans (by simp) (natToBase36Aux_length m ((m + 1) / 36) _)
      rw [hc] at h1
      exact Nat.not_succ_le_zero 0 h1

theorem generateChecksum_ne_empty (data : String) : generateChecksum data ≠ "" := by
  unfold generateChecksum intToBase36
  by_cases h : data.toList.foldl checksumStep 0 < 0
  · rw [if_pos h]
    intro hc
    exact List.noConfusion (congrArg String.toList hc)
  · rw [if_neg h]
    intro hc
    exact natToBase36_ne_nil _ (congrArg String.toList hc)

/-- `localStorage`, keyed by string.  A stored blob is modelled by its
`JSON.parse` outcome: `some none` is a blob that is not valid JSON (parsing
throws), `some (some v)` parses to the value `v`. -/
def Store : Type := String → Option (Option JSValue)

/-- `localStorage.setItem` with a blob that parses back to `v`. -/
def storeSet (st : Store) (k : String) (v : Option JSValue) : Store :=
  fun k' => if k' = k then some v else st k'

/-- `localStorage.removeItem`. -/
def storeRemove (st : Store) (k : String) : Store :=
  fun k' => if k' = k then none else st k'

/-- First-match field lookup of a parsed JSON object. -/
def lookupField : List (String × JSValue) → String → Option JSValue
  | [], _ => none
  | (k, v) :: fs, key => if k = key then some v else lookupField fs key

/-- JS property access `data.field`: `none` is `undefined` (missing field
or non-object receiver). -/
def jsGet : JSValue → String → Option JSValue
  | .obj fs, key => lookupField fs key
  | _, _ => none

/-- JS strict equality of a runtime value against a known string
(`data.checksum !== expectedChecksum`): values of any other type are
strictly unequal to a string. -/
def jsStrictEqStr : JSValue → String → Bool
  | .str s, t => s == t
  | _, _ => false

/-- `30 * 24 * 60 * 60 * 1000`, the `maxAge` of `secureRetrieve`. -/
def maxAgeMs : ℤ := 30 * 24 * 60 * 60 * 1000

/-- `Date.now() - data.timestamp > maxAge`.  A non-numeric timestamp makes
the JS comparison `NaN > maxAge`, which is false. -/
def jsAgeExceeded (now : ℤ) (ts : JSValue) : Bool :=
  match ts with
  | .num t => decide ((now : ℚ) - t > (maxAgeMs : ℚ))
  | _ => false

/-- `securityService.secureStore`: stores
`{value, timestamp: Date.now(), checksum: generateChecksum(JSON.stringify(value))}`.
`strfy` is `JSON.stringify` on the inner value and `now` is `Date.now()`. -/
def secureStore (strfy : JSValue → String) (now : ℤ) (st : Store) (key : String)
    (value : JSValue) : Store :=
  storeSet st key (some (.obj
    [("value", value), ("timestamp", .num (now : ℚ)),
     ("checksum", .str (generateChecksum (strfy value)))]))

/-- `securityService.secureRetrieve`: returns the retrieved value (or
`null`) together with the store after the call.  The three fields are read
before the `!data.value || !data.timestamp || !data.checksum` truthiness
guard; a missing field is `undefined`, hence falsy, hence the corrupted
branch (which also models the catch for a `JSON.parse` failure and for the
field access on non-object data). -/
def secureRetrieve (strfy : JSValue → String) (now : ℤ) (st : Store) (key : String) :
    Option JSValue × Store :=
  match st key with
  | none => (none, st)
  | some none => (none, storeRemove st key)
  | some (some data) =>
    match jsGet data "value", jsGet data "timestamp", jsGet data "checksum" with
    | some v, some ts, some ck =>
      if !(jsTruthy v) || !(jsTruthy ts) || !(jsTruthy ck) then (none, storeRemove st key)
      else if !(jsStrictEqStr ck (generateChecksum (strfy v))) then (none, storeRemove st key)
      else if jsAgeExceeded now ts then (none, storeRemove st key)
      else (some v, st)
    | _, _, _ => (none, storeRemove st key)

/-- A concrete `JSON.stringify` stand-in used by closed instances (the
round-trip logic never depends on the serialized text, only on feeding the
same text to `generateChecksum` on the way in and the way out). -/
def strfyConst : JSValue → String := fun _ => ""

/-- C3 counterexample: storing the (falsy) empty string and immediately
retrieving it yields `null`, not the stored value — `!data.value` treats
every falsy stored value as corrupted. -/
theorem secureStore_empty_string_lost :
    (secureRetrieve strfyConst 1000
        (secureStore strfyConst 1000 (fun _ => none) "k" (.str "")) "k").1 = none
      ∧ (secureRetrieve strfyConst 1000
        (secureStore strfyConst 1000 (fun _ => none) "k" (.str "")) "k").1
          ≠ some (JSValue.str "") := by
  refine ⟨rfl, ?_⟩
  intro h
  exact Option.noConfusion h

/-- C3 (amended): the round trip holds for every JS-truthy value — with the
same serialization on both sides, a non-zero clock, and no intervening
writes, `secureRetrieve` after `secureStore` returns the stored value. -/
theorem secureStore_roundtrip (strfy : JSValue → String) (now : ℤ) (st : Store)
    (k : String) (v : JSValue) (hv : jsTruthy v = true) (hnow : now ≠ 0) :
    (secureRetrieve strfy now (secureStore strfy now st k v) k).1 = some v := by
  have h1 : ((now : ℚ) ≠ 0) := Int.cast_ne_zero.mpr hnow
  have h2 := generateChecksum_ne_empty (strfy v)
  have h3 : jsAgeExceeded now (.num (now : ℚ)) = false := by
    simp only [jsAgeExceeded, sub_self, decide_eq_false_iff_not, not_lt]
    norm_num [maxAgeMs]
  have ht : jsTruthy (.num (now : ℚ)) = true := by simp [jsTruthy, h1]
  have hc : jsTruthy (.str (generateChecksum (strfy v))) = true := by simp [jsTruthy, h2]
  simp [secureRetrieve, secureStore, storeSet, jsGet, lookupField, hv, ht, hc,
        jsStrictEqStr, h3]

/-- C3 amended-claim witness at a concrete instance. -/
theorem secureStore_roundtrip_witness :
    (secureRetrieve strfyConst 5
        (secureStore strfyConst 5 (fun _ => none) "a" (.str "x")) "a").1
      = some (.str "x") :=
  secureStore_roundtrip strfyConst 5 (fun _ => none) "a" (.str "x") (by decide) (by decide)

/-- C6: integrity check on retrieval — a blob that is not valid JSON, a
missing `value`/`timestamp`/`checksum` field, a checksum differing from the
one recomputed from the stored value, or a timestamp more than 30 days old
each make `secureRetrieve` return `null` and remove the entry. -/
theorem secureRetrieve_integrity (strfy : JSValue → String) (now : ℤ) (st : Store)
    (k : String) :
    (st k = some none →
      secureRetrieve strfy now st k = (none, storeRemove st k)) ∧
    (∀ data, st k = some (some data) →
      (jsGet data "value" = none ∨ jsGet data "timestamp" = none
        ∨ jsGet data "checksum" = none) →
      secureRetrieve strfy now st k = (none, storeRemove st k)) ∧
    (∀ data v ts ck, st k = some (some data) →
      jsGet data "value" = some v → jsGet data "timestamp" = some ts →
      jsGet data "checksum" = some ck →
      jsStrictEqStr ck (generateChecksum (strfy v)) = false →
      secureRetrieve strfy now st k = (none, storeRemove st k)) ∧
    (∀ data v t ck, st k = some (some data) →
      jsGet data "value" = some v → jsGet data "timestamp" = some (.num t) →
      jsGet data "checksum" = some ck → (now : ℚ) - t > (maxAgeMs : ℚ) →
      secureRetrieve strfy now st k = (none, storeRemove st k)) := by
  refine ⟨fun h => by simp [secureRetrieve, h], ?_, ?_, ?_⟩
  · intro data h hmiss
    rcases hmiss with hm | hm | hm <;>
      cases h1 : jsGet data "value" <;> cases h2 : jsGet data "timestamp" <;>
      cases h3 : jsGet data "checksum" <;>
      simp_all [secureRetrieve, h]
  · intro data v ts ck h h1 h2 h3 hck
    cases hb : (!(jsTruthy v) || !(jsTruthy ts) || !(jsTruthy ck)) <;>
      simp [secureRetrieve, h, h1, h2, h3, hb, hck]
  · intro data v t ck h h1 h2 h3 hage
    have hex : jsAgeExceeded now (.num t) = true := by
      simp [jsAgeExceeded]
      exact hage
    cases hb : (!(jsTruthy v) || !(jsTruthy (JSValue.num t)) || !(jsTruthy ck)) <;>
      cases hc : jsStrictEqStr ck (generateChecksum (strfy v)) <;>
      simp [secureRetrieve, h, h1, h2, h3, hb, hc, hex]

/-- C6 witness: a blob that fails to parse is cleared and yields `null`. -/
theorem secureRetrieve_integrity_witness :
    secureRetrieve strfyConst 0 (fun _ => some none) "x"
      = (none, storeRemove (fun _ => some none) "x") :=
  (secureRetrieve_integrity strfyConst 0 (fun _ => some none) "x").1 rfl

/-- The in-memory `rateLimits` map of `securityService`. -/
def RLState : Type := String → Option (Nat × ℤ)

/-- `this.rateLimits.set(key, v)` (and the in-place `current.count++`). -/
def rlSet (rl : RLState) (k : String) (v : Nat × ℤ) : RLState :=
  fun k' => if k' = k then some v else rl k'

/-- `securityService.checkRateLimit` at clock `now`: returns the decision
and the updated map. -/
def checkRateLimit (now : ℤ) (maxRequests : Nat) (windowMs : ℤ) (rl : RLState)
    (provider : String) : Bool × RLState :=
  let key := "ratelimit_" ++ provider
  match rl key with
  | none => (true, rlSet rl key (1, now + windowMs))
  | some (count, resetTime) =>
    if resetTime < now then (true, rlSet rl key (1, now + windowMs))
    else if maxRequests ≤ count then (false, rl)
    else (true, rlSet rl key (count + 1, resetTime))

/-- A sequence of `checkRateLimit` calls with fixed parameters, one per
listed clock value. -/
def runRateLimit (maxRequests : Nat) (windowMs : ℤ) (provider : String) :
    List ℤ → RLState → List Bool × RLState
  | [], rl => ([], rl)
  | t :: ts, rl =>
    let step := checkRateLimit t maxRequests windowMs rl provider
    let rest := runRateLimit maxRequests windowMs provider ts step.2
    (step.1 :: rest.1, rest.2)

theorem runRateLimit_count (maxR : Nat) (w : ℤ) (p : String) (ts : List ℤ)
    (rl : RLState) (c : Nat) (rt : ℤ)
    (hrl : rl ("ratelimit_" ++ p) = some (c, rt)) (hts : ∀ t ∈ ts, t ≤ rt) :
    (runRateLimit maxR w p ts rl).1.count true ≤ maxR - c ∧
    (runRateLimit maxR w p ts rl).2 ("ratelimit_" ++ p)
      = some (c + (runRateLimit maxR w p ts rl).1.count true, rt) := by
  induction ts generalizing rl c with
  | nil => simp [runRateLimit, hrl]
  | cons t ts ih =>
    have hmem : ¬(rt < t) := not_lt.mpr (hts t (List.mem_cons_self _ _))
    have hts' : ∀ x ∈ ts, x ≤ rt := fun x hx => hts x (List.mem_cons_of_mem _ hx)
    by_cases hmax : maxR ≤ c
    · have hstep : checkRateLimit t maxR w rl p = (false, rl) := by
        simp [checkRateLimit, hrl, hmem, hmax]
      obtain ⟨hcnt, hst⟩ := ih rl c hrl hts'
      have hl : runRateLimit maxR w p (t :: ts) rl
          = ((false :: (runRateLimit maxR w p ts rl).1), (runRateLimit maxR w p ts rl).2) := by
        simp [runRateLimit, hstep]
      rw [hl]
      simp only [List.count_cons]
      constructor
      · simpa using hcnt
      · simpa using hst
    · have hstep : checkRateLimit t maxR w rl p
          = (true, rlSet rl ("ratelimit_" ++ p) (c + 1, rt)) := by
        simp [checkRateLimit, hrl, hmem, hmax]
      have hrl' : (rlSet rl ("ratelimit_" ++ p) (c + 1, rt)) ("ratelimit_" ++ p)
          = some (c + 1, rt) := by simp [rlSet]
      obtain ⟨hcnt, hst⟩ := ih _ (c + 1) hrl' hts'
      have hl : runRateLimit maxR w p (t :: ts) rl
          = ((true :: (runRateLimit maxR w p ts (rlSet rl ("ratelimit_" ++ p) (c + 1, rt))).1),
             (runRateLimit maxR w p ts (rlSet rl ("ratelimit_" ++ p) (c + 1, rt))).2) := by
        simp [runRateLimit, hstep]
      rw [hl]
      simp only [List.count_cons]
      constructor
      · simp only [beq_self_eq_true, if_pos]
        omega
      · rw [hst]
        have : c + 1 + (runRateLimit maxR w p ts
            (rlSet rl ("ratelimit_" ++ p) (c + 1, rt))).1.count true
          = c + ((runRateLimit maxR w p ts
            (rlSet rl ("ratelimit_" ++ p) (c + 1, rt))).1.count true
              + if (true == true) = true then 1 else 0) := by
          simp
          omega
        rw [this]

/-- C4: rate-limit invariant — (a) starting from an empty entry, a run of
calls whose clocks all lie inside the first call's window returns `true` at
most `maxRequests` times; (b) a single call preserves the bound
`count ≤ maxRequests` on every stored entry; (c) the first call after the
stored `resetTime` has passed returns `true` and resets the count to 1. -/
theorem checkRateLimit_invariant (maxR : Nat) (w : ℤ) (p : String) :
    (∀ (t0 : ℤ) (ts : List ℤ) (rl : RLState),
      1 ≤ maxR → rl ("ratelimit_" ++ p) = none → (∀ t ∈ ts, t ≤ t0 + w) →
      (runRateLimit maxR w p (t0 :: ts) rl).1.count true ≤ maxR) ∧
    (∀ (now : ℤ) (rl : RLState),
      1 ≤ maxR → (∀ k c rt, rl k = some (c, rt) → c ≤ maxR) →
      ∀ k c rt, (checkRateLimit now maxR w rl p).2 k = some (c, rt) → c ≤ maxR) ∧
    (∀ (now : ℤ) (rl : RLState) (c : Nat) (rt : ℤ),
      rl ("ratelimit_" ++ p) = some (c, rt) → rt < now →
      checkRateLimit now maxR w rl p
        = (true, rlSet rl ("ratelimit_" ++ p) (1, now + w))) := by
  refine ⟨?_, ?_, ?_⟩
  · intro t0 ts rl hmax hnone hts
    have hstep : checkRateLimit t0 maxR w rl p
        = (true, rlSet rl ("ratelimit_" ++ p) (1, t0 + w)) := by
      simp [checkRateLimit, hnone]
    have hrl' : (rlSet rl ("ratelimit_" ++ p) (1, t0 + w)) ("ratelimit_" ++ p)
        = some (1, t0 + w) := by simp [rlSet]
    obtain ⟨hcnt, _⟩ := runRateLimit_count maxR w p ts _ 1 (t0 + w) hrl' hts
    have hl : runRateLimit maxR w p (t0 :: ts) rl
        = ((true :: (runRateLimit maxR w p ts (rlSet rl ("ratelimit_" ++ p) (1, t0 + w))).1),
           (runRateLimit maxR w p ts (rlSet rl ("ratelimit_" ++ p) (1, t0 + w))).2) := by
      simp [runRateLimit, hstep]
    rw [hl]
    simp only [List.count_cons, beq_self_eq_true, if_pos]
    omega
  · intro now rl hmax hinv k c rt hk
    rcases hq : rl ("ratelimit_" ++ p) with _ | ⟨c0, rt0⟩
    · rw [checkRateLimit] at hk
      simp only [hq] at hk
      by_cases hkey : k = "ratelimit_" ++ p
      · rw [hkey] at hk
        simp [rlSet] at hk
        omega
      · simp [rlSet, hkey] at hk
        exact hinv k c rt hk
    · rw [checkRateLimit] at hk
      simp only [hq] at hk
      by_cases hreset : rt0 < now
      · rw [if_pos hreset] at hk
        by_cases hkey : k = "ratelimit_" ++ p
        · rw [hkey] at hk
          simp [rlSet] at hk
          omega
        · simp [rlSet, hkey] at hk
          exact hinv k c rt hk
      · rw [if_neg hreset] at hk
        by_cases hc0 : maxR ≤ c0
        · rw [if_pos hc0] at hk
          exact hinv k c rt hk
        · rw [if_neg hc0] at hk
          by_cases hkey : k = "ratelimit_" ++ p
          · rw [hkey] at hk
            simp [rlSet] at hk
            omega
          · simp [rlSet, hkey] at hk
            exact hinv k c rt hk
  · intro now rl c rt hrl hlt
    simp [checkRateLimit, hrl, hlt]

/-- C4 witness: with `maxRequests = 2` and four calls inside one window,
at most two calls return `true`. -/
theorem checkRateLimit_invariant_witness :
    (runRateLimit 2 10 "x" [0, 0, 0, 0] (fun _ => none)).1.count true ≤ 2 :=
  (checkRateLimit_invariant 2 10 "x").1 0 [0, 0, 0] (fun _ => none) (by decide) rfl
    (by decide)

/-- An entry of `llmModels` (`LLMModel` of `src/types`); prices are exact
rationals. -/
structure LLMModel where
  id : String
  name : String
  provider : String
  contextWindow : Nat
  inputPricePerToken : ℚ
  outputPricePerToken : ℚ
  maxOutputTokens : Nat
  capabilities : List String
  strengths : List String
  weaknesses : List String
deriving DecidableEq

/-- A benchmark task (`BenchmarkTask` of `src/types`). -/
structure BenchmarkTask where
  id : String
  name : String
  description : String
  category : String
  difficulty : String
  prompt : String
deriving DecidableEq

/-- Token usage of an API response. -/
structure Usage where
  inputTokens : Nat
  outputTokens : Nat
deriving DecidableEq

/-- `APIResponse` of `apiService`; `error` is the optional error field. -/
structure APIResponse where
  content : String
  usage : Usage
  latency : ℚ
  error : Option String := none
deriving DecidableEq

/-- What the five private provider-call methods produce on success: a
response without an `error` field. -/
structure ProviderSuccess where
  content : String
  usage : Usage
  latency : ℚ
deriving DecidableEq

/-- `DetailedBenchmarkResult` of `src/types`; `output` is absent on the
error records built by the loop. -/
structure DetailedBenchmarkResult where
  modelId : String
  taskId : String
  score : ℚ
  latency : ℚ
  outputTokens : Nat
  inputTokens : Nat
  cost : ℚ
  quality : ℚ
  timestamp : ℚ
  output : Option String := none
  error : Option String := none
  input : String
  rawOutput : String
  processingTime : ℚ
deriving DecidableEq

/-- The environment of one benchmark run: the configured-provider check,
the provider SDK behaviour (`ok` = resolved value of the private
`callOpenAI`/…/`callMistral`; `error` = the message of the exception they
throw, `'Unknown error'` for a non-`Error` throw), and the clock-derived
quantities (`Date.now() - startTime` measured at the catch, the measured
`processingTime`, and `Date.now()` for the `timestamp` fields). -/
structure BenchEnv where
  cfg : String → Bool
  pc : LLMModel → BenchmarkTask → Except String ProviderSuccess
  errLatency : LLMModel → BenchmarkTask → ℚ
  procTime : LLMModel → BenchmarkTask → ℚ
  now : ℚ

/-- The five provider names of the `switch` in `apiService.callModel`. -/
def supportedProvider (p : String) : Bool :=
  p == "OpenAI" || p == "Anthropic" || p == "Google" || p == "Meta" || p == "Mistral AI"

/-- `apiService.callModel`: dispatch on the provider; the surrounding
`try/catch` turns any throw (including the `Unsupported provider` one)
into a resolved response with empty content, zero usage and an `error`
field, so the promise never rejects. -/
def callModel (env : BenchEnv) (model : LLMModel) (task : BenchmarkTask) : APIResponse :=
  if supportedProvider model.provider then
    match env.pc model task with
    | .ok r => { content := r.content, usage := r.usage, latency := r.latency }
    | .error e =>
      { content := "", usage := ⟨0, 0⟩, latency := env.errLatency model task
        error := some e }
  else
    { content := "", usage := ⟨0, 0⟩, latency := env.errLatency model task
      error := some ("Unsupported provider: " ++ model.provider) }

/-- JS `haystack.includes(needle)` over character lists. -/
def containsAuxL (needle : List Char) : List Char → Bool
  | [] => needle.isEmpty
  | c :: cs => needle.isPrefixOf (c :: cs) || containsAuxL needle cs

/-- JS `String.prototype.includes`. -/
def containsSub (needle haystack : String) : Bool :=
  containsAuxL needle.toList haystack.toList

/-- Number of pieces of JS `split` with a single-character separator: one
more than the number of occurrences (the sources only use the length of
the split). -/
def jsSplitLen (sep : Char) (s : String) : Nat :=
  1 + s.toList.countP (fun c => c == sep)

/-- Length-appropriateness increment of `assessOutputQuality`
(`+0.2` / `+0.1` / nothing). -/
def lengthBonus (len : Nat) : ℚ :=
  if 50 < len ∧ len < 2000 then 2/10
  else if 2000 ≤ len ∧ len < 5000 then 1/10
  else 0

/-- Task-specific increments of the `switch (task.category)` of
`assessOutputQuality`, written as the sum of the two conditional
increments of each branch. -/
def categoryBonus (output : String) (category : String) : ℚ :=
  match category with
  | "coding" =>
    (if containsSub "def " output || containsSub "function " output
        || containsSub "class " output then 2/10 else 0)
    + (if containsSub "```" output then 1/10 else 0)
  | "reasoning" =>
    (if containsSub "because" output || containsSub "therefore" output
        || containsSub "thus" output then 1/10 else 0)
    + (if containsSub "step" output || containsSub "first" output
        || containsSub "second" output then 1/10 else 0)
  | "creative" =>
    (if 100 < output.length then 1/10 else 0)
    + (if 3 < jsSplitLen '.' output then 1/10 else 0)
  | "analysis" =>
    (if containsSub "%" output || containsSub "trend" output
        || containsSub "analysis" output then 1/10 else 0)
    + (if containsSub "recommend" output || containsSub "suggest" output then 1/10 else 0)
  | _ => 0

/-- Coherence increment of `assessOutputQuality`. -/
def coherenceBonus (output : String) : ℚ :=
  if decide (20 < jsSplitLen ' ' output) && !containsSub "ERROR" output
      && !containsSub "error" output then 1/10 else 0

/-- `assessOutputQuality`: 0 for empty or whitespace-only output, otherwise
the base score 0.5 plus the sequential `score +=` increments (rendered as a
sum of the branch bonuses), clamped to [0, 1]. -/
def assessOutputQuality (output : String) (task : BenchmarkTask) : ℚ :=
  if (jsTrim output).length = 0 then 0
  else
    min (max (1/2 + lengthBonus output.length + categoryBonus output task.category
      + coherenceBonus output) 0) 1

/-- `Math.floor(s.length / 4)`, the token estimate used as fallback. -/
def estimateTokens (s : String) : Nat := s.length / 4

/-- JS `a || b` on numbers: `a` when non-zero (truthy), else `b`. -/
def jsOrNat (n fallback : Nat) : Nat := if n = 0 then fallback else n

/-- The body of the `generateBenchmarkResults` double loop for one
(model, task) pair.  `callModel` is total in this model, so the outer
`catch` for unexpected errors is unreachable; the unconfigured branch is
taken before any API call. -/
def benchStep (env : BenchEnv) (model : LLMModel) (task : BenchmarkTask) :
    DetailedBenchmarkResult :=
  if !(env.cfg model.provider) then
    { modelId := model.id, taskId := task.id, score := 0, latency := 0, outputTokens := 0
      inputTokens := estimateTokens task.prompt, cost := 0, quality := 0, timestamp := env.now
      error := some ("API key not configured for " ++ model.provider
        ++ ". Please add your API key to test this model.")
      input := task.prompt, rawOutput := "", processingTime := 0 }
  else
    let apiResponse := callModel env model task
    let quality := if jsStrTruthy apiResponse.error then 0
      else assessOutputQuality apiResponse.content task
    let score := if jsStrTruthy apiResponse.error then 0
      else quality * 0.8 + (1 - min (apiResponse.latency / 10000) 1) * 0.2
    let inputTokens := jsOrNat apiResponse.usage.inputTokens (estimateTokens task.prompt)
    let outputTokens := jsOrNat apiResponse.usage.outputTokens
      (estimateTokens apiResponse.content)
    let cost := (inputTokens : ℚ) * model.inputPricePerToken
      + (outputTokens : ℚ) * model.outputPricePerToken
    { modelId := model.id, taskId := task.id, score := score, latency := apiResponse.latency
      outputTokens := outputTokens, inputTokens := inputTokens, cost := cost
      quality := quality, timestamp := env.now, output := some apiResponse.content
      error := apiResponse.error, input := task.prompt, rawOutput := apiResponse.content
      processingTime := env.procTime model task }

/-- `generateBenchmarkResults`: the sequential double loop, one record per
(model, task) pair, models outer, tasks inner. -/
def generateBenchmarkResults (env : BenchEnv) (models : List LLMModel)
    (tasks : List BenchmarkTask) : List DetailedBenchmarkResult :=
  models.flatMap fun model => tasks.map fun task => benchStep env model task

/-- The sequence of `apiService.callModel` invocations of the loop: the
body reaches its single call exactly when `isProviderConfigured` returns
true (the unconfigured branch pushes an error record and `continue`s), and
there is no retry. -/
def benchCalls (env : BenchEnv) (models : List LLMModel) (tasks : List BenchmarkTask) :
    List (LLMModel × BenchmarkTask) :=
  (models.flatMap fun model => tasks.map fun task => (model, task)).filter
    fun pair => env.cfg pair.1.provider

/-- `llmModels` from `src/data/models.ts`. -/
def llmModels : List LLMModel :=
  [{ id := "gpt-4o", name := "GPT-4o", provider := "OpenAI", contextWindow := 128000
     inputPricePerToken := 0.000005, outputPricePerToken := 0.000015, maxOutputTokens := 4096
     capabilities := ["text", "code", "reasoning", "analysis", "multimodal"]
     strengths := ["Latest model", "Excellent reasoning", "Multimodal", "Fast responses"]
     weaknesses := ["Premium pricing", "Rate limits"] },
   { id := "gpt-4o-mini", name := "GPT-4o Mini", provider := "OpenAI", contextWindow := 128000
     inputPricePerToken := 0.00000015, outputPricePerToken := 0.0000006, maxOutputTokens := 4096
     capabilities := ["text", "code", "reasoning", "fast-response"]
     strengths := ["Very cost-effective", "Fast responses", "Good performance", "Large context"]
     weaknesses := ["Less capable than full GPT-4o", "Limited complex reasoning"] },
   { id := "gpt-4-turbo", name := "GPT-4 Turbo", provider := "OpenAI", contextWindow := 128000
     inputPricePerToken := 0.00001, outputPricePerToken := 0.00003, maxOutputTokens := 4096
     capabilities := ["text", "code", "reasoning", "analysis"]
     strengths := ["Complex reasoning", "Code generation", "Creative writing", "Large context"]
     weaknesses := ["High cost", "Slower than GPT-4o"] },
   { id := "gpt-4", name := "GPT-4", provider := "OpenAI", contextWindow := 8192
     inputPricePerToken := 0.00003, outputPricePerToken := 0.00006, maxOutputTokens := 4096
     capabilities := ["text", "code", "reasoning", "analysis"]
     strengths := ["Excellent quality", "Proven reliability", "Strong reasoning"]
     weaknesses := ["Very high cost", "Smaller context", "Slower responses"] },
   { id := "gpt-3.5-turbo", name := "GPT-3.5 Turbo", provider := "OpenAI", contextWindow := 16385
     inputPricePerToken := 0.0000015, outputPricePerToken := 0.000002, maxOutputTokens := 4096
     capabilities := ["text", "code", "general"]
     strengths := ["Fast responses", "Cost-effective", "General purpose", "Reliable"]
     weaknesses := ["Limited reasoning", "Less creative", "Basic capabilities"] },
   { id := "claude-3-5-sonnet-20241022", name := "Claude 3.5 Sonnet", provider := "Anthropic"
     contextWindow := 200000, inputPricePerToken := 0.000003, outputPricePerToken := 0.000015
     maxOutputTokens := 4096, capabilities := ["text", "code", "reasoning", "analysis", "creative"]
     strengths := ["Latest Claude model", "Excellent coding", "Strong reasoning", "Large context"]
     weaknesses := ["Premium pricing", "API availability", "Rate limits"] },
   { id := "claude-3-opus-20240229", name := "Claude 3 Opus", provider := "Anthropic"
     contextWindow := 200000, inputPricePerToken := 0.000015, outputPricePerToken := 0.000075
     maxOutputTokens := 4096, capabilities := ["text", "code", "reasoning", "analysis", "creative"]
     strengths := ["Top-tier reasoning", "Exceptional quality", "Large context", "Nuanced responses"]
     weaknesses := ["Very expensive", "Slow processing", "Limited availability"] },
   { id := "claude-3-sonnet-20240229", name := "Claude 3 Sonnet", provider := "Anthropic"
     contextWindow := 200000, inputPricePerToken := 0.000003, outputPricePerToken := 0.000015
     maxOutputTokens := 4096, capabilities := ["text", "code", "reasoning", "analysis"]
     strengths := ["Balanced performance", "Good reasoning", "Moderate cost", "Large context"]
     weaknesses := ["Not as capable as Opus", "Still relatively expensive"] },
   { id := "claude-3-haiku-20240307", name := "Claude 3 Haiku", provider := "Anthropic"
     contextWindow := 200000, inputPricePerToken := 0.00000025, outputPricePerToken := 0.00000125
     maxOutputTokens := 4096, capabilities := ["text", "general", "fast-response"]
     strengths := ["Very fast", "Cost-effective", "Good for simple tasks", "Large context"]
     weaknesses := ["Limited reasoning", "Basic capabilities", "Less creative"] },
   { id := "gemini-1.5-pro", name := "Gemini 1.5 Pro", provider := "Google"
     contextWindow := 2000000, inputPricePerToken := 0.0000035, outputPricePerToken := 0.0000105
     maxOutputTokens := 8192, capabilities := ["text", "code", "multimodal", "reasoning"]
     strengths := ["Massive context window", "Multimodal capabilities", "Good reasoning",
       "Competitive pricing"]
     weaknesses := ["Newer model", "Limited track record", "API quotas"] },
   { id := "gemini-1.5-flash", name := "Gemini 1.5 Flash", provider := "Google"
     contextWindow := 1000000, inputPricePerToken := 0.000000075, outputPricePerToken := 0.0000003
     maxOutputTokens := 8192, capabilities := ["text", "code", "fast-response", "multimodal"]
     strengths := ["Extremely fast", "Very cost-effective", "Large context", "Good for high-volume"]
     weaknesses := ["Lower quality than Pro", "Limited reasoning", "Basic capabilities"] },
   { id := "gemini-pro", name := "Gemini Pro", provider := "Google", contextWindow := 30720
     inputPricePerToken := 0.0000005, outputPricePerToken := 0.0000015, maxOutputTokens := 2048
     capabilities := ["text", "code", "multimodal"]
     strengths := ["Multimodal", "Cost-effective", "Fast responses", "Good availability"]
     weaknesses := ["Smaller context", "Inconsistent quality", "Limited output length"] },
   { id := "Meta-Llama-3.1-405B-Instruct", name := "Llama 3.1 405B", provider := "Meta"
     contextWindow := 128000, inputPricePerToken := 0.000005, outputPricePerToken := 0.000015
     maxOutputTokens := 4096, capabilities := ["text", "code", "reasoning", "analysis"]
     strengths := ["Largest open model", "Excellent performance", "Open source", "Strong reasoning"]
     weaknesses := ["Requires hosting", "High compute needs", "Limited providers"] },
   { id := "Meta-Llama-3.1-70B-Instruct", name := "Llama 3.1 70B", provider := "Meta"
     contextWindow := 128000, inputPricePerToken := 0.0000009, outputPricePerToken := 0.0000009
     maxOutputTokens := 4096, capabilities := ["text", "code", "reasoning", "open-source"]
     strengths := ["Open source", "Cost-effective", "Good performance", "Large context"]
     weaknesses := ["Requires hosting", "Less capable than 405B", "Setup complexity"] },
   { id := "Meta-Llama-3.1-8B-Instruct", name := "Llama 3.1 8B", provider := "Meta"
     contextWindow := 128000, inputPricePerToken := 0.0000002, outputPricePerToken := 0.0000002
     maxOutputTokens := 4096, capabilities := ["text", "code", "fast-response", "open-source"]
     strengths := ["Very fast", "Extremely cost-effective", "Open source", "Low resource needs"]
     weaknesses := ["Limited capabilities", "Basic reasoning", "Smaller model size"] },
   { id := "llama-2-70b-chat", name := "Llama 2 70B Chat", provider := "Meta"
     contextWindow := 4096, inputPricePerToken := 0.0000007, outputPricePerToken := 0.0000009
     maxOutputTokens := 2048, capabilities := ["text", "code", "open-source"]
     strengths := ["Open source", "Very cost-effective", "Good performance", "Established model"]
     weaknesses := ["Limited context", "Older generation", "Basic capabilities"] },
   { id := "mistral-large-2407", name := "Mistral Large 2", provider := "Mistral AI"
     contextWindow := 128000, inputPricePerToken := 0.000003, outputPricePerToken := 0.000009
     maxOutputTokens := 4096, capabilities := ["text", "code", "reasoning", "multilingual"]
     strengths := ["Latest Mistral model", "Strong multilingual", "Good reasoning",
       "European provider"]
     weaknesses := ["Limited availability", "Newer model", "Higher cost"] },
   { id := "mistral-large-2402", name := "Mistral Large", provider := "Mistral AI"
     contextWindow := 32000, inputPricePerToken := 0.000008, outputPricePerToken := 0.000024
     maxOutputTokens := 4096, capabilities := ["text", "code", "reasoning", "multilingual"]
     strengths := ["Multilingual", "Good reasoning", "European provider", "Privacy focused"]
     weaknesses := ["Higher cost", "Limited availability", "Smaller context"] },
   { id := "mistral-medium", name := "Mistral Medium", provider := "Mistral AI"
     contextWindow := 32000, inputPricePerToken := 0.0000027, outputPricePerToken := 0.0000081
     maxOutputTokens := 4096, capabilities := ["text", "code", "multilingual"]
     strengths := ["Balanced performance", "Good multilingual", "Moderate cost", "Good availability"]
     weaknesses := ["Not as capable as Large", "Limited reasoning", "Smaller context"] },
   { id := "mistral-small", name := "Mistral Small", provider := "Mistral AI"
     contextWindow := 32000, inputPricePerToken := 0.000001, outputPricePerToken := 0.000003
     maxOutputTokens := 4096, capabilities := ["text", "fast-response", "multilingual"]
     strengths := ["Very cost-effective", "Fast responses", "Good for simple tasks", "Multilingual"]
     weaknesses := ["Limited capabilities", "Basic reasoning", "Lower quality"] },
   { id := "codestral-2405", name := "Codestral", provider := "Mistral AI", contextWindow := 32000
     inputPricePerToken := 0.000001, outputPricePerToken := 0.000003, maxOutputTokens := 4096
     capabilities := ["code", "text", "programming"]
     strengths := ["Specialized for coding", "Good code completion", "Cost-effective",
       "Multiple languages"]
     weaknesses := ["Limited general abilities", "Code-focused only", "Smaller context"] }]

/-- A `ModelRecommendation`; `model` is `none` when
`llmModels.find(m => m.id === result.modelId)` is `undefined` (the `!`
assertion hides this). -/
structure ModelRecommendation where
  model : Option LLMModel
  score : ℚ
  reason : String
  costEfficiency : ℚ
  performanceRating : ℚ
deriving DecidableEq

/-- The recommendation built from one benchmark result in
`getModelRecommendations`. -/
def recOf (prioritizePerformance : Bool) (result : DetailedBenchmarkResult) :
    ModelRecommendation :=
  let model := llmModels.find? fun m => m.id == result.modelId
  let costEfficiency := if 0 < result.cost then result.score / result.cost
    else result.score * 1000
  let performanceRating := result.score
  let score := if prioritizePerformance then
      performanceRating * 0.7 + (min (costEfficiency / 1000) 1) * 0.3
    else performanceRating * 0.4 + (min (costEfficiency / 1000) 1) * 0.6
  let reason := if 0.9 < result.score then
      "Excellent performance on this task type with high-quality output"
    else if 0.8 < result.score then
      "Strong performance with good reliability and consistent results"
    else if 1000 < costEfficiency then
      "Best cost-to-performance ratio for budget-conscious applications"
    else "Balanced option suitable for general use cases"
  { model := model, score := score, reason := reason, costEfficiency := costEfficiency
    performanceRating := performanceRating }

/-- Stable insertion of a recommendation into a list sorted by descending
score (the JS `sort((a, b) => b.score - a.score)` is a stable sort). -/
def insertRecDesc (r : ModelRecommendation) :
    List ModelRecommendation → List ModelRecommendation
  | [] => [r]
  | x :: xs => if x.score ≤ r.score then r :: x :: xs else x :: insertRecDesc r xs

/-- Sort recommendations by descending combined score. -/
def sortRecsDesc : List ModelRecommendation → List ModelRecommendation
  | [] => []
  | r :: rs => insertRecDesc r (sortRecsDesc rs)

/-- `getModelRecommendations`: filter to the task's results whose `error`
is falsy, map to recommendations, sort by descending combined score. -/
def getModelRecommendations (task : BenchmarkTask)
    (results : List DetailedBenchmarkResult) (prioritizePerformance : Bool) :
    List ModelRecommendation :=
  let taskResults := results.filter fun r => r.taskId == task.id && !(jsStrTruthy r.error)
  if taskResults.length = 0 then []
  else sortRecsDesc (taskResults.map (recOf prioritizePerformance))

/-- A concrete model for closed instances (positive input price). -/
def mA : LLMModel :=
  { id := "m-a", name := "Model A", provider := "OpenAI", contextWindow := 1000
    inputPricePerToken := 0.001, outputPricePerToken := 0.002, maxOutputTokens := 100
    capabilities := [], strengths := [], weaknesses := [] }

/-- A concrete task for closed instances (12-character prompt). -/
def tA : BenchmarkTask :=
  { id := "t-a", name := "Task A", description := "d", category := "general"
    difficulty := "easy", prompt := "What is 2+2?" }

/-- Environment whose provider call throws an `Error` with empty message. -/
def envEmptyErr : BenchEnv :=
  { cfg := fun _ => true, pc := fun _ _ => .error "", errLatency := fun _ _ => 0
    procTime := fun _ _ => 0, now := 0 }

/-- Environment whose provider call resolves. -/
def envOk : BenchEnv :=
  { cfg := fun _ => true
    pc := fun _ _ => .ok { content := "hello", usage := ⟨1, 2⟩, latency := 5 }
    errLatency := fun _ _ => 0, procTime := fun _ _ => 0, now := 0 }

/-- Environment whose provider call throws `Error('boom')`. -/
def envBoom : BenchEnv :=
  { cfg := fun _ => true, pc := fun _ _ => .error "boom", errLatency := fun _ _ => 0
    procTime := fun _ _ => 0, now := 0 }

/-- C9 counterexample: a provider call that throws an `Error` whose message
is empty yields a caught response whose `error` field is the *empty*
string — the field is set but not non-empty. -/
theorem callModel_empty_error_message :
    callModel envEmptyErr mA tA
      = { content := "", usage := ⟨0, 0⟩, latency := 0, error := some "" } := by
  rfl

/-- C9 (amended): `callModel` always resolves to an `APIResponse`; on an
unsupported provider the response has empty content, zero usage and the
non-empty error `Unsupported provider: …`; when the provider call throws,
empty content and zero usage with the thrown message as the error field
(empty exactly when the thrown message is); on success no error field. -/
theorem callModel_characterization (env : BenchEnv) (m : LLMModel) (t : BenchmarkTask) :
    (supportedProvider m.provider = false →
      callModel env m t =
        { content := "", usage := ⟨0, 0⟩, latency := env.errLatency m t
          error := some ("Unsupported provider: " ++ m.provider) }
      ∧ ("Unsupported provider: " ++ m.provider) ≠ "") ∧
    (∀ r, supportedProvider m.provider = true → env.pc m t = .ok r →
      callModel env m t =
        { content := r.content, usage := r.usage
          latency := r.latency, error := none }) ∧
    (∀ e, supportedProvider m.provider = true → env.pc m t = .error e →
      callModel env m t =
        { content := "", usage := ⟨0, 0⟩
          latency := env.errLatency m t, error := some e }) := by
  refine ⟨fun h => ⟨by simp [callModel, h], ?_⟩,
    fun r h hr => by simp [callModel, h, hr],
    fun e h he => by simp [callModel, h, he]⟩
  intro hc
  have hlen := congrArg String.length hc
  rw [String.length_append, show ("Unsupported provider: " : String).length = 22 from rfl,
    show ("" : String).length = 0 from rfl] at hlen
  omega

/-- C9 amended-claim witness: a successful call carries no error field. -/
theorem callModel_characterization_witness :
    callModel envOk mA tA
      = { content := "hello", usage := ⟨1, 2⟩, latency := 5, error := none } :=
  (callModel_characterization envOk mA tA).2.1
    { content := "hello", usage := ⟨1, 2⟩, latency := 5 } rfl rfl

/-- An error response always has empty content and zero usage (errors only
arise from the catch branches of `callModel`). -/
theorem callModel_error_shape (env : BenchEnv) (m : LLMModel) (t : BenchmarkTask)
    (e : String) (h : (callModel env m t).error = some e) :
    callModel env m t =
      { content := "", usage := ⟨0, 0⟩
        latency := env.errLatency m t, error := some e } := by
  unfold callModel at h ⊢
  by_cases hs : supportedProvider m.provider
  · rw [if_pos hs] at h ⊢
    cases hpc : env.pc m t with
    | ok r => rw [hpc] at h; exact absurd h (by simp)
    | error e' => simp_all
  · rw [if_neg hs] at h ⊢
    simp only [Option.some.injEq] at h
    rw [h]

theorem generateBenchmarkResults_length (env : BenchEnv) (models : List LLMModel)
    (tasks : List BenchmarkTask) :
    (generateBenchmarkResults env models tasks).length = models.length * tasks.length := by
  induction models with
  | nil => simp [generateBenchmarkResults]
  | cons m ms ih =>
    rw [generateBenchmarkResults] at ih ⊢
    rw [List.flatMap_cons, List.length_append, List.length_map, ih, List.length_cons]
    ring

theorem append3_ne_empty (a b c : String) (ha : a.length ≠ 0) : (a ++ b ++ c) ≠ "" := by
  intro hc
  have hlen := congrArg String.length hc
  rw [String.length_append, String.length_append,
    show ("" : String).length = 0 from rfl] at hlen
  omega

/-- C1 (amended): the loop yields exactly one record per (model, task)
pair; an unconfigured pair gets the fixed error record (non-empty message,
score, quality, cost and outputTokens all 0); a pair whose API call fails
with a truthy error message gets that message with score, quality and
outputTokens 0 but `cost = floor(|prompt| / 4) * inputPricePerToken`
(non-zero for a priced model and a prompt of ≥ 4 characters); the list of
`callModel` invocations is duplicate-free whenever the model and task
lists are, i.e. each pair is called at most once, with no retry. -/
theorem generateBenchmarkResults_characterization (env : BenchEnv)
    (models : List LLMModel) (tasks : List BenchmarkTask) :
    (generateBenchmarkResults env models tasks).length = models.length * tasks.length ∧
    (∀ m t, env.cfg m.provider = false →
      benchStep env m t =
        { modelId := m.id, taskId := t.id, score := 0, latency := 0
          outputTokens := 0, inputTokens := estimateTokens t.prompt, cost := 0, quality := 0
          timestamp := env.now
          error := some ("API key not configured for " ++ m.provider
            ++ ". Please add your API key to test this model.")
          input := t.prompt, rawOutput := "", processingTime := 0 }
      ∧ jsStrTruthy (benchStep env m t).error = true) ∧
    (∀ m t e, env.cfg m.provider = true → (callModel env m t).error = some e → e ≠ "" →
      (benchStep env m t).score = 0 ∧ (benchStep env m t).quality = 0
        ∧ (benchStep env m t).outputTokens = 0
        ∧ (benchStep env m t).error = some e
        ∧ (benchStep env m t).cost = (estimateTokens t.prompt : ℚ) * m.inputPricePerToken) ∧
    (models.Nodup → tasks.Nodup → (benchCalls env models tasks).Nodup) := by
  refine ⟨generateBenchmarkResults_length env models tasks, ?_, ?_, ?_⟩
  · intro m t h
    constructor
    · simp [benchStep, h]
    · have hne : ("API key not configured for " ++ m.provider
          ++ ". Please add your API key to test this model.") ≠ "" :=
        append3_ne_empty _ _ _ (by decide)
      simp [benchStep, h, jsStrTruthy, hne]
  · intro m t e hcfg herr hne
    have hshape := callModel_error_shape env m t e herr
    have htr : jsStrTruthy (some e) = true := by simp [jsStrTruthy, hne]
    refine ⟨?_, ?_, ?_, ?_, ?_⟩ <;>
      simp [benchStep, hcfg, hshape, htr, jsOrNat, estimateTokens]
  · intro hm ht
    have hEq : (models.flatMap fun model => tasks.map fun task => (model, task))
        = models ×ˢ tasks := rfl
    unfold benchCalls
    rw [hEq]
    exact List.Nodup.filter _ (hm.product ht)

/-- C1 counterexample: with the provider configured and the API call
failing (`Error('boom')`), the single record carries the error message but
its cost is `3 * 0.001 = 0.003 ≠ 0` (12-character prompt, input price
0.001) — refuting "cost 0" for failed pairs. -/
theorem generateBenchmarkResults_failed_pair_cost_nonzero :
    generateBenchmarkResults envBoom [mA] [tA] = [benchStep envBoom mA tA]
    ∧ (benchStep envBoom mA tA).error = some "boom"
    ∧ (benchStep envBoom mA tA).cost = 3 / 1000
    ∧ (benchStep envBoom mA tA).cost ≠ 0 := by
  have h1 : estimateTokens tA.prompt = 3 := rfl
  have h2 : estimateTokens "" = 0 := rfl
  have h3 : callModel envBoom mA tA =
      { content := "", usage := ⟨0, 0⟩, latency := 0
        error := some "boom" } := rfl
  have hcfg : envBoom.cfg mA.provider = true := rfl
  have hq : jsStrTruthy (some "boom") = true := rfl
  have hip : mA.inputPricePerToken = (0.001 : ℚ) := rfl
  have hop : mA.outputPricePerToken = (0.002 : ℚ) := rfl
  have hcost : (benchStep envBoom mA tA).cost = 3 / 1000 := by
    norm_num [benchStep, hcfg, h3, hq, jsOrNat, h1, h2, hip, hop]
  exact ⟨rfl, rfl, hcost, by rw [hcost]; norm_num⟩

/-- C1 amended-claim witness: the failed-pair record at a concrete input. -/
theorem generateBenchmarkResults_characterization_witness :
    (benchStep envBoom mA tA).score = 0 ∧ (benchStep envBoom mA tA).quality = 0
      ∧ (benchStep envBoom mA tA).outputTokens = 0
      ∧ (benchStep envBoom mA tA).error = some "boom"
      ∧ (benchStep envBoom mA tA).cost
          = (estimateTokens tA.prompt : ℚ) * mA.inputPricePerToken :=
  (generateBenchmarkResults_characterization envBoom [mA] [tA]).2.2.1 mA tA "boom"
    rfl rfl (by decide)

/-- C5: the loop is sequential in model-major, task-minor order — the
record at position `i * |tasks| + j` is the one for `models[i]` and
`tasks[j]`. -/
theorem generateBenchmarkResults_order (env : BenchEnv) (models : List LLMModel)
    (tasks : List BenchmarkTask) (i j : Nat) (hi : i < models.length)
    (hj : j < tasks.length) :
    (generateBenchmarkResults env models tasks)[i * tasks.length + j]?
      = some (benchStep env models[i] tasks[j]) := by
  induction models generalizing i with
  | nil => exact absurd hi (Nat.not_lt_zero i)
  | cons m ms ih =>
    rw [generateBenchmarkResults, List.flatMap_cons]
    cases i with
    | zero =>
      rw [List.getElem?_append_left (by simpa using Nat.lt_of_lt_of_le hj (by simp))]
      rw [List.getElem?_map]
      simp [List.getElem?_eq_getElem hj]
    | succ i =>
      have hlen : (tasks.map (benchStep env m)).length ≤ (i + 1) * tasks.length + j := by
        rw [List.length_map]
        calc tasks.length ≤ (i + 1) * tasks.length := Nat.le_mul_of_pos_left _ (Nat.succ_pos i)
        _ ≤ (i + 1) * tasks.length + j := Nat.le_add_right _ _
      rw [List.getElem?_append_right hlen]
      have hidx : (i + 1) * tasks.length + j - (tasks.map (benchStep env m)).length
          = i * tasks.length + j := by
        rw [List.length_map]
        ring_nf
        omega
      rw [hidx]
      have hi' : i < ms.length := by simpa using Nat.lt_of_succ_lt_succ hi
      have hrec := ih i hi'
      rw [show (ms.flatMap fun model => List.map (fun task => benchStep env model task) tasks)
          = generateBenchmarkResults env ms tasks from rfl]
      rw [hrec]
      rfl

/-- C5 witness at a concrete one-model, one-task run. -/
theorem generateBenchmarkResults_order_witness :
    (generateBenchmarkResults envOk [mA] [tA])[0]? = some (benchStep envOk mA tA) :=
  generateBenchmarkResults_order envOk [mA] [tA] 0 0 (by decide) (by decide)

theorem lengthBonus_nonneg (len : Nat) : 0 ≤ lengthBonus len := by
  unfold lengthBonus
  split_ifs <;> norm_num

theorem categoryBonus_nonneg (output : String) (category : String) :
    0 ≤ categoryBonus output category := by
  unfold categoryBonus
  split
  all_goals positivity

theorem coherenceBonus_nonneg (output : String) : 0 ≤ coherenceBonus output := by
  unfold coherenceBonus
  split_ifs <;> norm_num

theorem scoreFormula_bounds (q lat : ℚ) (hq0 : 0 ≤ q) (hq1 : q ≤ 1) (hl : 0 ≤ lat) :
    0 ≤ q * 0.8 + (1 - min (lat / 10000) 1) * 0.2
      ∧ q * 0.8 + (1 - min (lat / 10000) 1) * 0.2 ≤ 1 := by
  have h1 : 0 ≤ min (lat / 10000) 1 := le_min (by positivity) (by norm_num)
  have h2 : min (lat / 10000) 1 ≤ 1 := min_le_right _ _
  constructor <;> nlinarith [h1, h2, hq0, hq1]

/-- C8: `assessOutputQuality` is 0 on empty/whitespace-only output, lies in
[1/2, 1] on any other output, always lies in [0, 1], and consequently the
combined `score` of every benchmark record lies in [0, 1] whenever the
measured latencies are non-negative. -/
theorem assessOutputQuality_bounds :
    (∀ output task, (jsTrim output).length = 0 → assessOutputQuality output task = 0) ∧
    (∀ output task, (jsTrim output).length ≠ 0 →
      1/2 ≤ assessOutputQuality output task ∧ assessOutputQuality output task ≤ 1) ∧
    (∀ output task,
      0 ≤ assessOutputQuality output task ∧ assessOutputQuality output task ≤ 1) ∧
    (∀ env m t, (∀ r, env.pc m t = .ok r → 0 ≤ r.latency) → 0 ≤ env.errLatency m t →
      0 ≤ (benchStep env m t).score ∧ (benchStep env m t).score ≤ 1) := by
  have hzero : ∀ output task, (jsTrim output).length = 0 →
      assessOutputQuality output task = 0 := by
    intro output task h
    simp [assessOutputQuality, h]
  have hbase : ∀ (output : String) (task : BenchmarkTask),
      (1 : ℚ)/2 ≤ 1/2 + lengthBonus output.length + categoryBonus output task.category
        + coherenceBonus output := by
    intro output task
    have := lengthBonus_nonneg output.length
    have := categoryBonus_nonneg output task.category
    have := coherenceBonus_nonneg output
    linarith
  have hmid : ∀ output task, (jsTrim output).length ≠ 0 →
      1/2 ≤ assessOutputQuality output task ∧ assessOutputQuality output task ≤ 1 := by
    intro output task h
    rw [assessOutputQuality, if_neg h]
    constructor
    · exact le_min (le_trans (hbase output task) (le_max_left _ _)) (by norm_num)
    · exact min_le_right _ _
  have hrange : ∀ output task,
      0 ≤ assessOutputQuality output task ∧ assessOutputQuality output task ≤ 1 := by
    intro output task
    by_cases h : (jsTrim output).length = 0
    · rw [hzero output task h]; norm_num
    · have := hmid output task h
      constructor
      · linarith [this.1]
      · exact this.2
  refine ⟨hzero, hmid, hrange, ?_⟩
  intro env m t hok herr
  by_cases hcfg : env.cfg m.provider
  · have hcfg' : (!(env.cfg m.provider)) = false := by simp [hcfg]
    rw [benchStep, hcfg']
    simp only [Bool.false_eq_true, if_false]
    by_cases htr : jsStrTruthy (callModel env m t).error = true
    · simp only [htr, if_true, if_pos]
      norm_num
    · simp only [htr, if_neg, if_false]
      have hq := hrange (callModel env m t).content t
      have hlat : 0 ≤ (callModel env m t).latency := by
        rw [callModel]
        by_cases hs : supportedProvider m.provider
        · rw [if_pos hs]
          cases hpc : env.pc m t with
          | ok r => exact hok r hpc
          | error e => exact herr
        · rw [if_neg hs]
          exact herr
      exact scoreFormula_bounds _ _ hq.1 hq.2 hlat
  · have hcfg' : (!(env.cfg m.provider)) = true := by simp [Bool.not_eq_true', hcfg]
    rw [benchStep, hcfg']
    norm_num

/-- C8 witness: the bounds at concrete inputs. -/
theorem assessOutputQuality_bounds_witness :
    assessOutputQuality "" tA = 0 ∧
    (0 ≤ (benchStep envOk mA tA).score ∧ (benchStep envOk mA tA).score ≤ 1) :=
  ⟨assessOutputQuality_bounds.1 "" tA rfl,
   assessOutputQuality_bounds.2.2.2 envOk mA tA
     (fun r hr => by
       have : ({ content := "hello", usage := ⟨1, 2⟩, latency := 5 } : ProviderSuccess)
           = r := by injection hr
       rw [← this]
       norm_num)
     (by norm_num [envOk])⟩

theorem insertRecDesc_perm (r : ModelRecommendation) (l : List ModelRecommendation) :
    (insertRecDesc r l).Perm (r :: l) := by
  induction l with
  | nil => exact List.Perm.refl _
  | cons x xs ih =>
    by_cases h : x.score ≤ r.score
    · rw [insertRecDesc, if_pos h]
    · rw [insertRecDesc, if_neg h]
      exact (ih.cons x).trans (List.Perm.swap r x xs)

theorem sortRecsDesc_perm (l : List ModelRecommendation) : (sortRecsDesc l).Perm l := by
  induction l with
  | nil => exact List.Perm.refl _
  | cons r rs ih => exact (insertRecDesc_perm r (sortRecsDesc rs)).trans (ih.cons r)

theorem insertRecDesc_pairwise (r : ModelRecommendation) (l : List ModelRecommendation)
    (h : l.Pairwise (fun a b => b.score ≤ a.score)) :
    (insertRecDesc r l).Pairwise (fun a b => b.score ≤ a.score) := by
  induction l with
  | nil => simp [insertRecDesc]
  | cons x xs ih =>
    rw [List.pairwise_cons] at h
    by_cases hle : x.score ≤ r.score
    · rw [insertRecDesc, if_pos hle, List.pairwise_cons]
      constructor
      · intro y hy
        rcases List.mem_cons.mp hy with rfl | hy'
        · exact hle
        · exact le_trans (h.1 y hy') hle
      · rw [List.pairwise_cons]
        exact h
    · rw [insertRecDesc, if_neg hle, List.pairwise_cons]
      refine ⟨?_, ih h.2⟩
      intro y hy
      have hy' := (insertRecDesc_perm r xs).mem_iff.mp hy
      rcases List.mem_cons.mp hy' with rfl | hy''
      · exact le_of_lt (not_le.mp hle)
      · exact h.1 y hy''

theorem sortRecsDesc_pairwise (l : List ModelRecommendation) :
    (sortRecsDesc l).Pairwise (fun a b => b.score ≤ a.score) := by
  induction l with
  | nil => simp [sortRecsDesc]
  | cons r rs ih => exact insertRecDesc_pairwise r _ ih

/-- C10 (amended): `getModelRecommendations` returns exactly one
recommendation per result whose `taskId` matches and whose `error` field is
unset *or the empty string* (JS-falsy) — the output is a permutation of the
mapped filtered results — sorted in non-increasing order of the combined
score, and it is empty when no such result exists. -/
theorem getModelRecommendations_characterization (task : BenchmarkTask)
    (results : List DetailedBenchmarkResult) (p : Bool) :
    (getModelRecommendations task results p).Perm
      ((results.filter fun r => r.taskId == task.id && !(jsStrTruthy r.error)).map
        (recOf p)) ∧
    (getModelRecommendations task results p).Pairwise (fun a b => b.score ≤ a.score) ∧
    ((results.filter fun r => r.taskId == task.id && !(jsStrTruthy r.error)) = [] →
      getModelRecommendations task results p = []) := by
  by_cases h : (results.filter fun r => r.taskId == task.id && !(jsStrTruthy r.error)).length = 0
  · have hnil : (results.filter fun r => r.taskId == task.id && !(jsStrTruthy r.error)) = [] :=
      List.length_eq_zero.mp h
    have hout : getModelRecommendations task results p = [] := by
      rw [getModelRecommendations]
      simp [h]
    refine ⟨?_, ?_, fun _ => hout⟩
    · rw [hout, hnil]
      exact List.Perm.refl _
    · rw [hout]
      exact List.Pairwise.nil
  · have hout : getModelRecommendations task results p
        = sortRecsDesc ((results.filter fun r =>
            r.taskId == task.id && !(jsStrTruthy r.error)).map (recOf p)) := by
      rw [getModelRecommendations]
      simp only [h, if_neg, if_false]
    refine ⟨?_, ?_, ?_⟩
    · rw [hout]
      exact sortRecsDesc_perm _
    · rw [hout]
      exact sortRecsDesc_pairwise _
    · intro hfil
      exact absurd (by rw [hfil]; rfl) h

/-- C10 amended-claim witness: no matching result gives the empty list. -/
theorem getModelRecommendations_characterization_witness :
    getModelRecommendations tA [] true = [] :=
  (getModelRecommendations_characterization tA [] true).2.2 rfl

/-- A result whose `error` field is set to the empty string. -/
def rEmptyErr : DetailedBenchmarkResult :=
  { modelId := "m-a", taskId := "t-a", score := 1/2, latency := 1, outputTokens := 1
    inputTokens := 1, cost := 1, quality := 1/2, timestamp := 0, error := some ""
    input := "p", rawOutput := "o", processingTime := 1 }

/-- C10 counterexample: a result whose `error` field is *set* (to the
falsy empty string) still yields a recommendation, so the list is not
empty even though no result has its error field unset. -/
theorem getModelRecommendations_includes_empty_error :
    getModelRecommendations tA [rEmptyErr] true ≠ [] ∧ rEmptyErr.error = some "" := by
  constructor
  · have hkeep : ([rEmptyErr].filter fun r => r.taskId == tA.id && !(jsStrTruthy r.error))
        = [rEmptyErr] := rfl
    rw [getModelRecommendations]
    simp only [hkeep]
    simp [sortRecsDesc, insertRecDesc]
  · rfl
